import Mathlib

/-!
Shallow embedding of the paper-trading ledger engine in `src/strm.py`.

Python floats are modelled as rationals (`ℚ`); timestamps (`datetime.now()`)
are modelled as abstract `Nat` values passed in by the caller; the trade
dictionaries become a `Trade` structure; the Streamlit session state
(`st.session_state.trades`, `st.session_state.balance`) becomes the
`TradingState` structure, passed and returned explicitly.
-/

/-- Trade side, the `'BUY'` / `'SELL'` strings of the source. -/
inductive Side where
  | BUY : Side
  | SELL : Side
deriving DecidableEq, Repr

/-- Trade status, the `'OPEN'` / `'CLOSED'` strings of the source. -/
inductive Status where
  | OPEN : Status
  | CLOSED : Status
deriving DecidableEq, Repr

/-- The trade dictionary built in `execute_trade` (src/strm.py lines 94-107)
and mutated in `close_trade` (lines 126-129).  `exit_time` is absent until
close, like the key that `close_trade` adds. -/
structure Trade where
  timestamp : Nat
  symbol : String
  company : String
  side : Side
  entry_price : ℚ
  shares : ℚ
  amount : ℚ
  stop_loss : ℚ
  take_profit : ℚ
  status : Status
  pnl : Option ℚ
  exit_price : Option ℚ
  exit_time : Option Nat
deriving DecidableEq, Repr

/-- The mutable session state of the source: `st.session_state.trades` and
`st.session_state.balance` (src/strm.py lines 8-11). -/
structure TradingState where
  trades : List Trade
  balance : ℚ
deriving DecidableEq, Repr

/-- The trade dictionary literal of `execute_trade` (src/strm.py lines 90-107):
`shares = amount / price`, stop and target offset by the percentage in the
direction of the side, status `'OPEN'`, `pnl` and `exit_price` set to `None`. -/
def openedTrade (symbol : String) (side : Side) (price : ℚ) (company : String)
    (amount stop_loss_pct take_profit_pct : ℚ) (now : Nat) : Trade :=
  { timestamp := now
    symbol := symbol
    company := company
    side := side
    entry_price := price
    shares := amount / price
    amount := amount
    stop_loss := if side = Side.BUY then price * (1 - stop_loss_pct / 100)
      else price * (1 + stop_loss_pct / 100)
    take_profit := if side = Side.BUY then price * (1 + take_profit_pct / 100)
      else price * (1 - take_profit_pct / 100)
    status := Status.OPEN
    pnl := none
    exit_price := none
    exit_time := none }

/-- `execute_trade` (src/strm.py lines 85-111).  Returns the updated state
together with the value the Python function returns (`None` or the new
trade).  The guard is exactly `amount <= 0 or amount > st.session_state.balance`. -/
def executeTrade (st : TradingState) (symbol : String) (side : Side) (price : ℚ)
    (company : String) (amount stop_loss_pct take_profit_pct : ℚ) (now : Nat) :
    TradingState × Option Trade :=
  if amount ≤ 0 ∨ amount > st.balance then (st, none)
  else
    let trade := openedTrade symbol side price company amount stop_loss_pct
      take_profit_pct now
    ({ trades := st.trades ++ [trade], balance := st.balance - amount }, some trade)

/-- The PnL computed in `close_trade` (src/strm.py lines 121-124):
`(current_price - entry_price) * shares` for `'BUY'`, else
`(entry_price - current_price) * shares`. -/
def tradePnl (trade : Trade) (current_price : ℚ) : ℚ :=
  if trade.side = Side.BUY then (current_price - trade.entry_price) * trade.shares
  else (trade.entry_price - current_price) * trade.shares

/-- The in-place mutation of the trade dictionary in `close_trade`
(src/strm.py lines 126-129): set exit fields, PnL and status `'CLOSED'`. -/
def closedTrade (trade : Trade) (current_price : ℚ) (now : Nat) : Trade :=
  { trade with
      exit_price := some current_price
      pnl := some (tradePnl trade current_price)
      status := Status.CLOSED
      exit_time := some now }

/-- `close_trade` (src/strm.py lines 113-132).  The index is a Python `int`,
modelled as `ℤ` so that negative indices take the guard's failure branch.
`get_market_data` performs network I/O and may return `None`; its result is
modelled as the parameter `currentData : Option ℚ` carrying `last_price`. -/
def closeTrade (st : TradingState) (trade_index : ℤ) (currentData : Option ℚ)
    (now : Nat) : TradingState × Option Trade :=
  if 0 ≤ trade_index ∧ trade_index < (st.trades.length : ℤ) then
    match st.trades[trade_index.toNat]? with
    | none => (st, none)
    | some trade =>
      if trade.status = Status.OPEN then
        match currentData with
        | none => (st, none)
        | some current_price =>
          let closed := closedTrade trade current_price now
          ({ trades := st.trades.set trade_index.toNat closed
             balance := st.balance + trade.amount + tradePnl trade current_price },
           some closed)
      else (st, none)
  else (st, none)

/-- The `Reset Portfolio` handler (src/strm.py lines 161-164):
`st.session_state.balance = params['initial_investment']`;
`st.session_state.trades = []`. -/
def resetPortfolio (_st : TradingState) (initial_investment : ℚ) : TradingState :=
  { trades := [], balance := initial_investment }

/-- The side classification of `get_trading_opportunities`
(src/strm.py lines 65-69): `side = 'BUY'` when `imbalance >= buy_threshold`,
`side = 'SELL'` when `imbalance <= sell_threshold`, otherwise `side = None`
and no opportunity row is produced. -/
def classifySide (imbalance buy_threshold sell_threshold : ℚ) : Option Side :=
  if imbalance ≥ buy_threshold then some Side.BUY
  else if imbalance ≤ sell_threshold then some Side.SELL
  else none

/-- The effect of one price refresh tick on the ledger state.  In `main`
(src/strm.py lines 134-294) a rerun recomputes `get_trading_opportunities`
and renders the dashboard, but no code path reads a trade's `stop_loss` or
`take_profit` to decide a close: `close_trade` is invoked only from the
per-row `Close` button (line 266) and `execute_trade` only from the per-row
trade buttons (line 231).  Hence a price update by itself leaves
`st.session_state.trades` and `st.session_state.balance` unchanged,
whatever the current price and however the tick's row is classified. -/
def priceUpdate (st : TradingState) (_price : ℚ) (_signal : Option Side) :
    TradingState := st

/-- Number of OPEN trades recorded for a symbol, as computed by the
dashboard's position filters (src/strm.py lines 192, 247). -/
def openCount (st : TradingState) (symbol : String) : Nat :=
  (st.trades.filter fun t => t.symbol == symbol && t.status == Status.OPEN).length

/-- One ledger operation: a button-driven `execute_trade` or `close_trade`. -/
inductive Op where
  | execute (symbol : String) (side : Side) (price : ℚ) (company : String)
      (amount stop_loss_pct take_profit_pct : ℚ) (now : Nat) : Op
  | close (trade_index : ℤ) (currentData : Option ℚ) (now : Nat) : Op

/-- Apply one operation to the session state, discarding the returned trade. -/
def applyOp (st : TradingState) : Op → TradingState
  | Op.execute s sd p c a sl tp n => (executeTrade st s sd p c a sl tp n).1
  | Op.close i d n => (closeTrade st i d n).1

/-- Run a sequence of operations left to right. -/
def runOps (st : TradingState) : List Op → TradingState
  | [] => st
  | op :: ops => runOps (applyOp st op) ops

/-- Shape of the trades `execute_trade` records for a long (BUY) open:
side BUY, nonnegative committed amount, positive entry price, and
`shares = amount / price` as set on line 90 of src/strm.py. -/
def Trade.longShape (t : Trade) : Prop :=
  t.side = Side.BUY ∧ 0 ≤ t.amount ∧ 0 < t.entry_price ∧
    t.shares = t.amount / t.entry_price

/-- Solvency invariant for a long-only ledger: nonnegative balance and every
recorded trade has the long shape. -/
def LongLedgerInv (st : TradingState) : Prop :=
  0 ≤ st.balance ∧ ∀ t ∈ st.trades, t.longShape

/-- Long-only well-formedness of an operation: opens are BUY-side at a
positive price, and closes are evaluated at a nonnegative current price
when market data is available. -/
def Op.longSafe : Op → Prop
  | Op.execute _ side price _ _ _ _ _ => side = Side.BUY ∧ 0 < price
  | Op.close _ currentData _ => ∀ p, currentData = some p → 0 ≤ p

/-! ### Case equations for the two ledger mutators -/

/-- `execute_trade` takes its `return None` branch exactly when
`amount <= 0 or amount > balance`. -/
theorem executeTrade_rejected (st : TradingState) (symbol : String) (side : Side)
    (price : ℚ) (company : String) (amount slp tpp : ℚ) (now : ℕ)
    (h : amount ≤ 0 ∨ amount > st.balance) :
    executeTrade st symbol side price company amount slp tpp now = (st, none) := by
  simp only [executeTrade, if_pos h]

/-- On the accepting branch, `execute_trade` appends the new trade and debits
the full `amount`. -/
theorem executeTrade_accepted (st : TradingState) (symbol : String) (side : Side)
    (price : ℚ) (company : String) (amount slp tpp : ℚ) (now : ℕ)
    (h1 : 0 < amount) (h2 : amount ≤ st.balance) :
    executeTrade st symbol side price company amount slp tpp now =
      ({ trades := st.trades ++
           [openedTrade symbol side price company amount slp tpp now],
         balance := st.balance - amount },
       some (openedTrade symbol side price company amount slp tpp now)) := by
  have hg : ¬(amount ≤ 0 ∨ amount > st.balance) := by
    push_neg
    exact ⟨h1, h2⟩
  simp only [executeTrade, if_neg hg]

/-- `close_trade` with an index outside `[0, len(trades))` is a no-op
returning `None`. -/
theorem closeTrade_oob_eq (st : TradingState) (i : ℤ) (d : Option ℚ) (now : ℕ)
    (h : i < 0 ∨ (st.trades.length : ℤ) ≤ i) :
    closeTrade st i d now = (st, none) := by
  have hg : ¬(0 ≤ i ∧ i < (st.trades.length : ℤ)) := by omega
  simp only [closeTrade, if_neg hg]

/-- `close_trade` on a trade whose status is not `'OPEN'` is a no-op
returning `None`. -/
theorem closeTrade_not_open (st : TradingState) (i : ℕ) (t : Trade) (d : Option ℚ)
    (now : ℕ) (hget : st.trades[i]? = some t) (h : ¬ t.status = Status.OPEN) :
    closeTrade st (i : ℤ) d now = (st, none) := by
  have hlt : i < st.trades.length := (List.getElem?_eq_some.mp hget).1
  have hg : 0 ≤ (i : ℤ) ∧ (i : ℤ) < (st.trades.length : ℤ) := by omega
  simp only [closeTrade, if_pos hg, Int.toNat_natCast, hget, if_neg h]

/-- `close_trade` on an OPEN trade with no market data available
(`get_market_data` returned `None`) is a no-op returning `None`. -/
theorem closeTrade_no_data (st : TradingState) (i : ℕ) (t : Trade) (now : ℕ)
    (hget : st.trades[i]? = some t) (hopen : t.status = Status.OPEN) :
    closeTrade st (i : ℤ) none now = (st, none) := by
  have hlt : i < st.trades.length := (List.getElem?_eq_some.mp hget).1
  have hg : 0 ≤ (i : ℤ) ∧ (i : ℤ) < (st.trades.length : ℤ) := by omega
  simp only [closeTrade, if_pos hg, Int.toNat_natCast, hget, if_pos hopen]

/-- On the successful branch, `close_trade` overwrites index `i` with the
closed trade and credits `amount + pnl`. -/
theorem closeTrade_open_eq (st : TradingState) (i : ℕ) (t : Trade) (p : ℚ)
    (now : ℕ) (hget : st.trades[i]? = some t) (hopen : t.status = Status.OPEN) :
    closeTrade st (i : ℤ) (some p) now =
      ({ trades := st.trades.set i (closedTrade t p now),
         balance := st.balance + t.amount + tradePnl t p },
       some (closedTrade t p now)) := by
  have hlt : i < st.trades.length := (List.getElem?_eq_some.mp hget).1
  have hg : 0 ≤ (i : ℤ) ∧ (i : ℤ) < (st.trades.length : ℤ) := by omega
  simp only [closeTrade, if_pos hg, Int.toNat_natCast, hget, if_pos hopen]

/-! ### Solvency of the long-only ledger -/

/-- Closing a long at a nonnegative price credits a nonnegative total:
`amount + (p - entry) * (amount / entry) = amount * p / entry ≥ 0`. -/
theorem long_close_credit_nonneg (amount entry p : ℚ) (ha : 0 ≤ amount)
    (he : 0 < entry) (hp : 0 ≤ p) :
    0 ≤ amount + (p - entry) * (amount / entry) := by
  have h : amount + (p - entry) * (amount / entry) = amount * p / entry := by
    field_simp
    ring
  rw [h]
  positivity

/-- Applying one long-safe operation preserves the long-ledger invariant. -/
theorem applyOp_preserves_longInv (st : TradingState) (op : Op)
    (hinv : LongLedgerInv st) (hsafe : op.longSafe) :
    LongLedgerInv (applyOp st op) := by
  obtain ⟨hbal, htr⟩ := hinv
  cases op with
  | execute sym side price c amount slp tpp n =>
    obtain ⟨hside, hprice⟩ := hsafe
    by_cases hrej : amount ≤ 0 ∨ amount > st.balance
    · rw [applyOp, executeTrade_rejected st sym side price c amount slp tpp n hrej]
      exact ⟨hbal, htr⟩
    · push_neg at hrej
      obtain ⟨h1, h2⟩ := hrej
      rw [applyOp, executeTrade_accepted st sym side price c amount slp tpp n h1 h2]
      refine ⟨by simpa using h2, ?_⟩
      intro t ht
      rcases List.mem_append.mp ht with ht | ht
      · exact htr t ht
      · have ht : t = openedTrade sym side price c amount slp tpp n := by
          simpa using ht
        subst ht
        subst hside
        exact ⟨rfl, le_of_lt h1, hprice, rfl⟩
  | close i d n =>
    by_cases hrange : 0 ≤ i ∧ i < (st.trades.length : ℤ)
    · obtain ⟨h0, hlen⟩ := hrange
      have hji : ((i.toNat : ℕ) : ℤ) = i := Int.toNat_of_nonneg h0
      have hjlt : i.toNat < st.trades.length := by omega
      have hget : st.trades[i.toNat]? = some st.trades[i.toNat] :=
        List.getElem?_eq_getElem hjlt
      set t := st.trades[i.toNat] with hdef
      by_cases hopen : t.status = Status.OPEN
      · cases d with
        | none =>
          rw [applyOp, ← hji, closeTrade_no_data st i.toNat t n hget hopen]
          exact ⟨hbal, htr⟩
        | some p =>
          have hp : 0 ≤ p := hsafe p rfl
          rw [applyOp, ← hji, closeTrade_open_eq st i.toNat t p n hget hopen]
          obtain ⟨hside, hamt, hentry, hshares⟩ :=
            htr t (List.getElem_mem hjlt)
          constructor
          · have key := long_close_credit_nonneg t.amount t.entry_price p hamt hentry hp
            simp only [tradePnl]
            rw [if_pos hside, hshares]
            linarith
          · intro u hu
            rcases List.mem_or_eq_of_mem_set hu with hu | hu
            · exact htr u hu
            · subst hu
              exact ⟨hside, hamt, hentry, hshares⟩
      · rw [applyOp, ← hji, closeTrade_not_open st i.toNat t d n hget hopen]
        exact ⟨hbal, htr⟩
    · have hoob : i < 0 ∨ (st.trades.length : ℤ) ≤ i := by omega
      rw [applyOp, closeTrade_oob_eq st i d n hoob]
      exact ⟨hbal, htr⟩

/-- Running any sequence of long-safe operations preserves the invariant. -/
theorem runOps_preserves_longInv (st : TradingState) (ops : List Op)
    (hinv : LongLedgerInv st) (hsafe : ∀ op ∈ ops, Op.longSafe op) :
    LongLedgerInv (runOps st ops) := by
  induction ops generalizing st with
  | nil => exact hinv
  | cons op rest ih =>
    exact ih (applyOp st op)
      (applyOp_preserves_longInv st op hinv (hsafe op (List.mem_cons_self op rest)))
      fun o ho => hsafe o (List.mem_cons_of_mem op ho)

/-- `close_trade` leaves every entry holding a non-OPEN trade untouched:
its only write targets an index whose trade is OPEN. -/
theorem closeTrade_preserves_not_open (st : TradingState) (i : ℤ) (d : Option ℚ)
    (now : ℕ) (j : ℕ) (u : Trade) (hget : st.trades[j]? = some u)
    (hne : ¬ u.status = Status.OPEN) :
    (closeTrade st i d now).1.trades[j]? = some u := by
  by_cases hrange : 0 ≤ i ∧ i < (st.trades.length : ℤ)
  · obtain ⟨h0, hlen⟩ := hrange
    have hji : ((i.toNat : ℕ) : ℤ) = i := Int.toNat_of_nonneg h0
    have hjlt : i.toNat < st.trades.length := by omega
    have hgi : st.trades[i.toNat]? = some st.trades[i.toNat] :=
      List.getElem?_eq_getElem hjlt
    set t := st.trades[i.toNat] with hdef
    by_cases hopen : t.status = Status.OPEN
    · cases d with
      | none =>
        rw [← hji, closeTrade_no_data st i.toNat t now hgi hopen]
        exact hget
      | some p =>
        rw [← hji, closeTrade_open_eq st i.toNat t p now hgi hopen]
        have hij : i.toNat ≠ j := by
          intro he
          rw [he, hget] at hgi
          injection hgi with he2
          rw [← he2] at hopen
          exact hne hopen
        simpa [List.getElem?_set_ne hij] using hget
    · rw [← hji, closeTrade_not_open st i.toNat t d now hgi hopen]
      exact hget
  · have hoob : i < 0 ∨ (st.trades.length : ℤ) ≤ i := by omega
    rw [closeTrade_oob_eq st i d now hoob]
    exact hget

/-- `close_trade` never changes the number of recorded trades. -/
theorem closeTrade_length (st : TradingState) (i : ℤ) (d : Option ℚ) (now : ℕ) :
    (closeTrade st i d now).1.trades.length = st.trades.length := by
  by_cases hrange : 0 ≤ i ∧ i < (st.trades.length : ℤ)
  · obtain ⟨h0, hlen⟩ := hrange
    have hji : ((i.toNat : ℕ) : ℤ) = i := Int.toNat_of_nonneg h0
    have hjlt : i.toNat < st.trades.length := by omega
    have hgi : st.trades[i.toNat]? = some st.trades[i.toNat] :=
      List.getElem?_eq_getElem hjlt
    set t := st.trades[i.toNat] with hdef
    by_cases hopen : t.status = Status.OPEN
    · cases d with
      | none => rw [← hji, closeTrade_no_data st i.toNat t now hgi hopen]
      | some p =>
        rw [← hji, closeTrade_open_eq st i.toNat t p now hgi hopen]
        simp
    · rw [← hji, closeTrade_not_open st i.toNat t d now hgi hopen]
  · have hoob : i < 0 ∨ (st.trades.length : ℤ) ≤ i := by omega
    rw [closeTrade_oob_eq st i d now hoob]

/-- `execute_trade` leaves every existing entry of the trade list intact:
it only appends. -/
theorem executeTrade_preserves_entry (st : TradingState) (symbol : String)
    (side : Side) (price : ℚ) (company : String) (amount slp tpp : ℚ) (now : ℕ)
    (j : ℕ) (u : Trade) (hget : st.trades[j]? = some u) :
    (executeTrade st symbol side price company amount slp tpp now).1.trades[j]? =
      some u := by
  by_cases hrej : amount ≤ 0 ∨ amount > st.balance
  · rw [executeTrade_rejected st symbol side price company amount slp tpp now hrej]
    exact hget
  · push_neg at hrej
    rw [executeTrade_accepted st symbol side price company amount slp tpp now
      hrej.1 hrej.2]
    rw [List.getElem?_append_left (List.getElem?_eq_some.mp hget).1]
    exact hget

/-- `execute_trade` never shrinks the trade list. -/
theorem executeTrade_length_le (st : TradingState) (symbol : String) (side : Side)
    (price : ℚ) (company : String) (amount slp tpp : ℚ) (now : ℕ) :
    st.trades.length ≤
      (executeTrade st symbol side price company amount slp tpp now).1.trades.length := by
  by_cases hrej : amount ≤ 0 ∨ amount > st.balance
  · rw [executeTrade_rejected st symbol side price company amount slp tpp now hrej]
  · push_neg at hrej
    rw [executeTrade_accepted st symbol side price company amount slp tpp now
      hrej.1 hrej.2]
    simp

/-! ### Claims -/

/-- C1 (amended): ledger solvency holds for the long-only ledger.  Starting
from a state with nonnegative balance whose recorded trades are all
BUY-side with the shape `execute_trade` gives them, the cash balance is
`≥ 0` after every prefix of any sequence of BUY-side opens (at positive
prices) and closes (at nonnegative current prices).  Closes of SELL-side
trades are excluded: they can drive the balance negative. -/
theorem ledger_solvency_long_only (st : TradingState) (ops : List Op)
    (hinv : LongLedgerInv st) (hsafe : ∀ op ∈ ops, Op.longSafe op)
    (pre : List Op) (hpre : pre <+: ops) :
    0 ≤ (runOps st pre).balance :=
  (runOps_preserves_longInv st pre hinv fun op hop =>
    hsafe op (hpre.subset hop)).1

/-- Witness for C1: one BUY open of 100 from balance 100 leaves the balance
nonnegative. -/
theorem ledger_solvency_long_only_witness :
    0 ≤ (runOps ⟨[], 100⟩
      [Op.execute "T" Side.BUY 100 "T Co" 100 5 10 0]).balance :=
  ledger_solvency_long_only ⟨[], 100⟩
    [Op.execute "T" Side.BUY 100 "T Co" 100 5 10 0]
    ⟨by norm_num, by simp⟩
    (by
      intro op hop
      rw [List.mem_singleton] at hop
      subst hop
      exact ⟨rfl, by norm_num⟩)
    [Op.execute "T" Side.BUY 100 "T Co" 100 5 10 0]
    (List.prefix_refl _)

/-- C1 counterexample: from balance 100, open a SELL-side (short) trade of
amount 100 at entry price 100, then close it at the nonnegative current
price 300: `close_trade` credits `amount + (entry - price) * shares
= 100 - 200`, and the balance ends at -100 < 0. -/
theorem short_close_insolvency_counterexample :
    (runOps ⟨[], 100⟩
      [Op.execute "A" Side.SELL 100 "A Co" 100 5 10 0,
       Op.close 0 (some 300) 1]).balance < 0 := by
  norm_num [runOps, applyOp, executeTrade, closeTrade, openedTrade,
    closedTrade, tradePnl]
  simp
  norm_num

/-- C2 (amended): `execute_trade` does not clamp.  An open request whose
amount exceeds the current balance is rejected with no trade and no
mutation; an open succeeds exactly when `0 < amount ≤ balance`, committing
the full requested amount. -/
theorem execute_trade_no_clamp (st : TradingState) (symbol : String)
    (side : Side) (price : ℚ) (company : String) (amount slp tpp : ℚ)
    (now : ℕ) :
    (amount > st.balance →
      executeTrade st symbol side price company amount slp tpp now =
        (st, none)) ∧
    (0 < amount → amount ≤ st.balance →
      executeTrade st symbol side price company amount slp tpp now =
        ({ trades := st.trades ++
             [openedTrade symbol side price company amount slp tpp now],
           balance := st.balance - amount },
         some (openedTrade symbol side price company amount slp tpp now)) ∧
      (openedTrade symbol side price company amount slp tpp now).amount =
        amount) :=
  ⟨fun h => executeTrade_rejected st symbol side price company amount slp tpp
      now (Or.inr h),
   fun h1 h2 => ⟨executeTrade_accepted st symbol side price company amount slp
      tpp now h1 h2, rfl⟩⟩

/-- Witness for C2: amount 100 against balance 50 is rejected; amount 40
against balance 50 opens committing exactly 40. -/
theorem execute_trade_no_clamp_witness :
    (executeTrade ⟨[], 50⟩ "A" Side.BUY 10 "AC" 100 5 10 0 =
      (⟨[], 50⟩, none)) ∧
    (executeTrade ⟨[], 50⟩ "A" Side.BUY 10 "AC" 40 5 10 0 =
      ({ trades := [openedTrade "A" Side.BUY 10 "AC" 40 5 10 0],
         balance := 10 },
       some (openedTrade "A" Side.BUY 10 "AC" 40 5 10 0))) := by
  constructor
  · exact (execute_trade_no_clamp ⟨[], 50⟩ "A" Side.BUY 10 "AC" 100 5 10 0).1
      (by norm_num)
  · have h := ((execute_trade_no_clamp ⟨[], 50⟩ "A" Side.BUY 10 "AC" 40 5 10
      0).2 (by norm_num) (by norm_num)).1
    rw [h]
    norm_num

/-- C2 counterexample: with `cash_balance = 50 > 0` and
`amount_per_trade = 100 > 50`, the claimed clamped open (amount
`min(100, 50) = 50`) does not happen: `execute_trade` returns `None` and
the state is unchanged. -/
theorem over_balance_open_rejected_counterexample :
    executeTrade ⟨[], 50⟩ "AAPL" Side.BUY 10 "Apple" 100 5 10 0 =
      (⟨[], 50⟩, none) := by
  norm_num [executeTrade]

/-- C3 (amended): `execute_trade` performs no per-symbol open check; every
successful open appends one more OPEN trade for its symbol, so two
consecutive successful BUY opens leave the symbol with two more OPEN
trades, not one. -/
theorem repeated_open_accumulates (st : TradingState) (symbol : String)
    (p₁ p₂ : ℚ) (c₁ c₂ : String) (amount slp tpp : ℚ) (n₁ n₂ : ℕ)
    (h1 : 0 < amount) (h2 : 2 * amount ≤ st.balance) :
    openCount (runOps st
      [Op.execute symbol Side.BUY p₁ c₁ amount slp tpp n₁,
       Op.execute symbol Side.BUY p₂ c₂ amount slp tpp n₂]) symbol =
      openCount st symbol + 2 := by
  have hb : 0 ≤ st.balance := by nlinarith
  have e1 := executeTrade_accepted st symbol Side.BUY p₁ c₁ amount slp tpp n₁
    h1 (by linarith)
  have e2 := executeTrade_accepted
    ⟨st.trades ++ [openedTrade symbol Side.BUY p₁ c₁ amount slp tpp n₁],
     st.balance - amount⟩
    symbol Side.BUY p₂ c₂ amount slp tpp n₂ h1 (by
      show amount ≤ st.balance - amount
      linarith)
  simp only [runOps, applyOp, e1, e2]
  simp [openCount, List.filter_append, openedTrade]

/-- Witness for C3: two successful BUY opens of 100 from balance 1000 leave
two OPEN trades for the symbol. -/
theorem repeated_open_accumulates_witness :
    openCount (runOps ⟨[], 1000⟩
      [Op.execute "M" Side.BUY 10 "MC" 100 5 10 0,
       Op.execute "M" Side.BUY 10 "MC" 100 5 10 1]) "M" =
      openCount ⟨[], 1000⟩ "M" + 2 :=
  repeated_open_accumulates ⟨[], 1000⟩ "M" 10 10 "MC" "MC" 100 5 10 0 1
    (by norm_num) (by norm_num)

/-- C3 counterexample: two consecutive BUY opens for `"AAPL"` with no
intervening close leave two OPEN trades for `"AAPL"`, not exactly one. -/
theorem double_open_counterexample :
    openCount (runOps ⟨[], 1000⟩
      [Op.execute "AAPL" Side.BUY 10 "Apple" 100 5 10 0,
       Op.execute "AAPL" Side.BUY 10 "Apple" 100 5 10 1]) "AAPL" = 2 := by
  norm_num [runOps, applyOp, executeTrade, openCount, openedTrade]

/-- C4 (code is missing the specified behavior): after opening a long at
price 100 with `stop_loss_pct = 5` (stop level 95), a later price tick at
94 — a breach of the stop, even with a BUY signal — leaves the trade OPEN:
no code path in `main` reads `stop_loss` or `take_profit` to force a
close, so the engine does not auto-trigger as the claim requires. -/
theorem stop_breach_no_auto_close :
    ((priceUpdate (executeTrade ⟨[], 1000⟩ "X" Side.BUY 100 "X Co" 100 5 10
        0).1 94 (some Side.BUY)).trades.map Trade.status = [Status.OPEN]) ∧
    ((priceUpdate (executeTrade ⟨[], 1000⟩ "X" Side.BUY 100 "X Co" 100 5 10
        0).1 94 (some Side.BUY)).trades.map Trade.stop_loss = [95]) ∧
    ((94 : ℚ) < 95) := by
  refine ⟨?_, ?_, by norm_num⟩ <;>
    norm_num [priceUpdate, executeTrade, openedTrade]

/-- C5: closing an OPEN trade at current price `p` realizes
`(p - entry_price) * shares` for a BUY trade and `(entry_price - p) *
shares` for a SELL trade, and credits the balance by exactly
`amount + pnl`. -/
theorem close_trade_pnl_correct (st : TradingState) (i : ℕ) (t : Trade)
    (p : ℚ) (now : ℕ) (hget : st.trades[i]? = some t)
    (hopen : t.status = Status.OPEN) :
    ((closeTrade st (i : ℤ) (some p) now).2.map Trade.pnl =
        some (some (if t.side = Side.BUY then (p - t.entry_price) * t.shares
          else (t.entry_price - p) * t.shares))) ∧
    ((closeTrade st (i : ℤ) (some p) now).1.balance =
        st.balance + t.amount + tradePnl t p) := by
  rw [closeTrade_open_eq st i t p now hget hopen]
  exact ⟨rfl, rfl⟩

/-- Witness for C5: a long opened at 100 with amount 100 (pre-open balance
1000, post-open 900) closed at 110 realizes pnl 10 and leaves balance
1010, a net gain of 10 over the starting balance. -/
theorem close_trade_pnl_correct_witness :
    ((closeTrade ⟨[openedTrade "T" Side.BUY 100 "T Co" 100 5 10 0], 900⟩ 0
        (some 110) 1).2.map Trade.pnl = some (some 10)) ∧
    ((closeTrade ⟨[openedTrade "T" Side.BUY 100 "T Co" 100 5 10 0], 900⟩ 0
        (some 110) 1).1.balance = 1010) := by
  have h := close_trade_pnl_correct
    ⟨[openedTrade "T" Side.BUY 100 "T Co" 100 5 10 0], 900⟩ 0
    (openedTrade "T" Side.BUY 100 "T Co" 100 5 10 0) 110 1 rfl rfl
  refine ⟨h.1.trans ?_, h.2.trans ?_⟩ <;>
    norm_num [openedTrade, tradePnl]

/-- C6: a trade makes at most one OPEN-to-CLOSED transition.  `close_trade`
on an already-CLOSED trade is a no-op returning `None`; neither
`close_trade` nor `execute_trade` ever changes the fields of a recorded
CLOSED trade. -/
theorem closed_trade_immutable (st : TradingState) (i : ℤ) (d : Option ℚ)
    (now : ℕ) :
    (∀ t, st.trades[i.toNat]? = some t → t.status = Status.CLOSED →
      closeTrade st i d now = (st, none)) ∧
    (∀ (j : ℕ) (u : Trade), st.trades[j]? = some u →
      u.status = Status.CLOSED →
      (closeTrade st i d now).1.trades[j]? = some u) ∧
    (∀ symbol side price company amount slp tpp (n : ℕ) (j : ℕ) (u : Trade),
      st.trades[j]? = some u →
      (executeTrade st symbol side price company amount slp tpp
        n).1.trades[j]? = some u) := by
  refine ⟨?_, ?_, ?_⟩
  · intro t hget hclosed
    by_cases h0 : 0 ≤ i
    · have hji : ((i.toNat : ℕ) : ℤ) = i := Int.toNat_of_nonneg h0
      rw [← hji]
      exact closeTrade_not_open st i.toNat t d now hget (by rw [hclosed]; simp)
    · exact closeTrade_oob_eq st i d now (Or.inl (by omega))
  · intro j u hget hclosed
    exact closeTrade_preserves_not_open st i d now j u hget
      (by rw [hclosed]; simp)
  · intro symbol side price company amount slp tpp n j u hget
    exact executeTrade_preserves_entry st symbol side price company amount
      slp tpp n j u hget

/-- Witness for C6: closing an already-CLOSED trade returns `None` and
leaves the state unchanged. -/
theorem closed_trade_immutable_witness :
    closeTrade ⟨[⟨0, "A", "A Co", Side.BUY, 100, 1, 100, 95, 110,
      Status.CLOSED, some 10, some 110, some 1⟩], 100⟩ 0 (some 50) 2 =
      (⟨[⟨0, "A", "A Co", Side.BUY, 100, 1, 100, 95, 110, Status.CLOSED,
        some 10, some 110, some 1⟩], 100⟩, none) :=
  (closed_trade_immutable ⟨[⟨0, "A", "A Co", Side.BUY, 100, 1, 100, 95, 110,
    Status.CLOSED, some 10, some 110, some 1⟩], 100⟩ 0 (some 50) 2).1
    ⟨0, "A", "A Co", Side.BUY, 100, 1, 100, 95, 110, Status.CLOSED, some 10,
      some 110, some 1⟩ rfl rfl

/-- C7: failed actions are atomic no-ops.  An open with `amount ≤ 0`
returns `None` without mutation; a close on an OPEN trade with no market
data returns `None` without mutation; a close on a non-OPEN trade returns
`None` without mutation. -/
theorem failed_actions_atomic (st : TradingState) :
    (∀ symbol side price company amount slp tpp (n : ℕ), amount ≤ 0 →
      executeTrade st symbol side price company amount slp tpp n =
        (st, none)) ∧
    (∀ (i : ℕ) (t : Trade) (n : ℕ), st.trades[i]? = some t →
      t.status = Status.OPEN → closeTrade st (i : ℤ) none n = (st, none)) ∧
    (∀ (i : ℕ) (t : Trade) (d : Option ℚ) (n : ℕ), st.trades[i]? = some t →
      ¬ t.status = Status.OPEN → closeTrade st (i : ℤ) d n = (st, none)) :=
  ⟨fun symbol side price company amount slp tpp n h =>
      executeTrade_rejected st symbol side price company amount slp tpp n
        (Or.inl h),
   fun i t n hget hopen => closeTrade_no_data st i t n hget hopen,
   fun i t d n hget hnot => closeTrade_not_open st i t d n hget hnot⟩

/-- Witness for C7: an open with amount 0 and a close with no market data
are both no-ops. -/
theorem failed_actions_atomic_witness :
    (executeTrade ⟨[], 1000⟩ "A" Side.BUY 10 "A Co" 0 5 10 0 =
      (⟨[], 1000⟩, none)) ∧
    (closeTrade ⟨[openedTrade "A" Side.BUY 100 "A Co" 100 5 10 0], 900⟩ 0
      none 1 =
      (⟨[openedTrade "A" Side.BUY 100 "A Co" 100 5 10 0], 900⟩, none)) :=
  ⟨(failed_actions_atomic ⟨[], 1000⟩).1 "A" Side.BUY 10 "A Co" 0 5 10 0
      (by norm_num),
   (failed_actions_atomic
      ⟨[openedTrade "A" Side.BUY 100 "A Co" 100 5 10 0], 900⟩).2.1 0
      (openedTrade "A" Side.BUY 100 "A Co" 100 5 10 0) 1 rfl rfl⟩

/-- C8 (amended): the classification uses `>=` and `<=`, so a value exactly
at the buy threshold yields BUY and a value exactly at the sell threshold
(below the buy threshold) yields SELL — ties produce trade signals, not
HOLD. -/
theorem threshold_tie_signals (b s : ℚ) :
    classifySide b b s = some Side.BUY ∧
    (s < b → classifySide s b s = some Side.SELL) := by
  constructor
  · simp [classifySide]
  · intro h
    have hnb : ¬ s ≥ b := not_le.mpr h
    simp [classifySide, hnb]

/-- Witness for C8: with buy threshold 1 and sell threshold 0, imbalance 1
gives BUY and imbalance 0 gives SELL. -/
theorem threshold_tie_signals_witness :
    classifySide 1 1 0 = some Side.BUY ∧ classifySide 0 1 0 = some Side.SELL :=
  ⟨(threshold_tie_signals 1 0).1, (threshold_tie_signals 1 0).2 (by norm_num)⟩

/-- C8 counterexample: at the default thresholds (buy 0.20, sell -0.20), an
imbalance exactly equal to the buy threshold is classified BUY, not HOLD. -/
theorem tie_not_hold_counterexample :
    classifySide (1 / 5) (1 / 5) (-(1 / 5)) = some Side.BUY := by
  norm_num [classifySide]

/-- C9: reset sets the balance to exactly the supplied initial value and
empties the trade history; closing never removes a trade (`close_trade`
preserves the history length) and opening never removes one
(`execute_trade` never shrinks the history). -/
theorem reset_semantics (st : TradingState) (v : ℚ) :
    ((resetPortfolio st v).balance = v) ∧
    ((resetPortfolio st v).trades = []) ∧
    (∀ (i : ℤ) (d : Option ℚ) (n : ℕ),
      (closeTrade st i d n).1.trades.length = st.trades.length) ∧
    (∀ symbol side price company amount slp tpp (n : ℕ),
      st.trades.length ≤
        (executeTrade st symbol side price company amount slp tpp
          n).1.trades.length) :=
  ⟨rfl, rfl, fun i d n => closeTrade_length st i d n,
   fun symbol side price company amount slp tpp n =>
     executeTrade_length_le st symbol side price company amount slp tpp n⟩

/-- C10: `close_trade` with any index outside `[0, len(trades))` — negative
or too large — returns `None` and leaves the trade list and balance
unchanged. -/
theorem close_trade_out_of_range_safe (st : TradingState) (i : ℤ)
    (d : Option ℚ) (n : ℕ) (h : i < 0 ∨ (st.trades.length : ℤ) ≤ i) :
    closeTrade st i d n = (st, none) :=
  closeTrade_oob_eq st i d n h

/-- Witness for C10: closing index -1 of an empty trade list is a no-op. -/
theorem close_trade_out_of_range_safe_witness :
    closeTrade ⟨[], 100⟩ (-1) (some 5) 0 = (⟨[], 100⟩, none) :=
  close_trade_out_of_range_safe ⟨[], 100⟩ (-1) (some 5) 0
    (Or.inl (by norm_num))
